import Mathlib

set_option maxRecDepth 8000

/-! Verification of the web-navigation control loop: page-state diffing
(`page_serializer.py`), loop detection and oracle-response decoding
(`navigation_agent.py`), the element-resolution cascades
(`browser_controller.py`) and the step orchestrator (`orchestrator.py`).
Actions and elements travel through the Python code as flat dictionaries
with string keys, modelled here as association lists of JSON-like values. -/

/-- JSON-like values stored in the flat dictionaries the program passes
around (action objects, element descriptors). -/
inductive JVal where
  | str (s : String)
  | num (n : Int)
  | bool (b : Bool)
  | null
deriving DecidableEq, Repr

/-- A Python dict with string keys, as an association list whose keys are
unique (Python dicts cannot hold duplicate keys; the JSON parser below
inserts with replacement). -/
abbrev Dict := List (String × JVal)

/-- Python `d.get(k)`: the value of the first binding of `k`, if any. -/
def dict_get (d : Dict) (k : String) : Option JVal :=
  match d with
  | [] => none
  | (k', v) :: rest => if k' = k then some v else dict_get rest k

/-- Python `d.get(k, dflt)`. -/
def dict_getD (d : Dict) (k : String) (dflt : JVal) : JVal :=
  (dict_get d k).getD dflt

/-- Python `str(v)` on a JSON-decoded value: strings print bare, booleans
as `True`/`False`, `None` as `None`. -/
def pyStr : JVal → String
  | .str s => s
  | .num n => toString n
  | .bool b => if b then "True" else "False"
  | .null => "None"

/-- Python f-string interpolation of `d.get(k)`: a missing key prints as
`None`. -/
def fmt_get (d : Dict) (k : String) : String :=
  match dict_get d k with
  | none => "None"
  | some v => pyStr v

/-- Python f-string interpolation of `d.get(k, '')`. -/
def fmt_getD (d : Dict) (k : String) : String :=
  match dict_get d k with
  | none => ""
  | some v => pyStr v

/-- Python truthiness of `d.get(k)`: `None`, `''`, `0` and `False` are
falsy. -/
def py_truthy : Option JVal → Bool
  | none => false
  | some (.str s) => s ≠ ""
  | some (.num n) => n ≠ 0
  | some (.bool b) => b
  | some .null => false

/-! PageStateTracker (`page_serializer.py`). Element keys are the strings
`f"{elem.get('type')}:{elem.get('text', '')}:{elem.get('input_type', '')}"`,
handled here as character lists. -/

/-- `PageStateTracker._element_key`: the identity key of an element
descriptor, `type:text:input_type` with Python `get` defaults. -/
def element_key (e : Dict) : List Char :=
  (fmt_get e "type").data ++ ':' :: (fmt_getD e "text").data ++ ':' :: (fmt_getD e "input_type").data

/-- Split a character list at its first `':'`, if one occurs. -/
def split_first_colon : List Char → Option (List Char × List Char)
  | [] => none
  | c :: cs =>
    if c = ':' then some ([], cs)
    else
      match split_first_colon cs with
      | some (l, r) => some (c :: l, r)
      | none => none

/-- Python `s.split(":", 2)`: at most two splits, so at most three parts. -/
def py_split_colon2 (s : List Char) : List (List Char) :=
  match split_first_colon s with
  | none => [s]
  | some (a, b) =>
    match split_first_colon b with
    | none => [a, b]
    | some (c, d) => [a, c, d]

/-- The mutable state of `PageStateTracker`: the previous snapshot's key
set (kept as a deduplicated list; only membership is ever used) and the
previous URL. -/
structure TrackerState where
  previous_elements : List (List Char)
  previous_url : Option String
deriving DecidableEq, Repr

/-- `PageStateTracker.__init__` / `reset`: empty key set, no URL. -/
def initial_tracker : TrackerState := ⟨[], none⟩

/-- The dictionary returned by `PageStateTracker.compute_changes`. -/
structure PageDiff where
  new_elements : List Dict
  removed_elements : List Dict
  url_changed : Bool
  has_changes : Bool
deriving DecidableEq, Repr

/-- `PageStateTracker.compute_changes`: diff the current element keys
against the stored previous key set, reconstruct minimal descriptors for
removed keys via `key.split(":", 2)`, flag a URL change only when a
previous URL exists, and overwrite the stored state with the current
snapshot. -/
def compute_changes (st : TrackerState) (current_elements : List Dict)
    (current_url : String) : PageDiff × TrackerState :=
  let current_set := (current_elements.map element_key).dedup
  let new_keys := current_set.filter (fun k => !(st.previous_elements.contains k))
  let removed_keys := st.previous_elements.filter (fun k => !(current_set.contains k))
  let new_elements := current_elements.filter (fun e => new_keys.contains (element_key e))
  let removed_elements := removed_keys.filterMap (fun k =>
    let parts := py_split_colon2 k
    if 2 ≤ parts.length then
      some [("type", JVal.str (String.mk (parts.getD 0 []))),
            ("text", JVal.str (String.mk (parts.getD 1 [])))]
    else none)
  let url_changed :=
    match st.previous_url with
    | none => false
    | some u => u ≠ current_url
  let has_changes := !new_elements.isEmpty || !removed_elements.isEmpty || url_changed
  (⟨new_elements, removed_elements, url_changed, has_changes⟩,
   ⟨current_set, some current_url⟩)

/-! Loop detection (`NavigationAgent`). Actions are serialized with
`json.dumps(action, sort_keys=True)` and counted within the last five
recorded serializations. -/

/-- A single-quote character, used inside generated message strings. -/
def squote : String := String.mk [Char.ofNat 39]

/-- An opening-brace character. -/
def obrace : Char := Char.ofNat 123

/-- A closing-brace character. -/
def cbrace : Char := Char.ofNat 125

/-- JSON string escaping as performed by `json.dumps` on the plain
strings occurring here: backslash and double quote are escaped. -/
def json_escape (s : String) : String :=
  String.mk (s.data.foldr
    (fun c acc =>
      if c = '\\' then '\\' :: '\\' :: acc
      else if c = '"' then '\\' :: '"' :: acc
      else c :: acc) [])

/-- Serialization of one value by `json.dumps`. -/
def dumps_val : JVal → String
  | .str s => "\"" ++ json_escape s ++ "\""
  | .num n => toString n
  | .bool b => if b then "true" else "false"
  | .null => "null"

/-- Lexicographic comparison of character lists by code point, the
ordering Python applies to the string keys under `sort_keys=True`. -/
def chars_le : List Char → List Char → Bool
  | [], _ => true
  | _ :: _, [] => false
  | a :: as, b :: bs =>
    if a.toNat < b.toNat then true
    else if b.toNat < a.toNat then false
    else chars_le as bs

/-- Ordering of dict entries by key, as used by `sort_keys=True`. -/
def key_le (a b : String × JVal) : Prop := chars_le a.1.data b.1.data = true

instance : DecidableRel key_le :=
  fun a b => (inferInstance : Decidable (chars_le a.1.data b.1.data = true))

/-- `json.dumps(action, sort_keys=True)` with the default separators:
keys sorted, entries joined by `", "`, each entry `"key": value`. -/
def dumps (d : Dict) : String :=
  let sorted := List.insertionSort key_le d
  String.mk [obrace] ++
    String.intercalate ", "
      (sorted.map (fun kv => "\"" ++ json_escape kv.1 ++ "\": " ++ dumps_val kv.2)) ++
    String.mk [cbrace]

/-- `NavigationAgent.max_identical_actions`. -/
def max_identical_actions : Nat := 3

/-- Python `l[-5:]`: the last five entries (all of them when fewer). -/
def take_last (n : Nat) (l : List String) : List String :=
  l.drop (l.length - n)

/-- `NavigationAgent._detect_loop`: serialize the action with sorted
keys, count occurrences among the last five recorded serializations, and
flag a loop when the count reaches `max_identical_actions - 1`, with a
reason naming the action discriminant and the repeat count. -/
def detect_loop (recent : List String) (action : Dict) : Bool × String :=
  let action_key := dumps action
  let recent_count := (take_last 5 recent).count action_key
  if max_identical_actions - 1 ≤ recent_count then
    (true, "Action " ++ squote ++ fmt_get action "action" ++ squote ++
      " has been attempted " ++ toString (recent_count + 1) ++ " times")
  else
    (false, "")

/-- The append-and-cap performed on `recent_actions` after a decision:
push the serialized action, then drop the oldest entry when the list
exceeds ten entries. -/
def record_action (recent : List String) (key : String) : List String :=
  let r := recent ++ [key]
  if 10 < r.length then r.drop 1 else r

/-! Oracle-response decoding (`NavigationAgent.decide_next_action`).
`json.loads` is a standard-library collaborator; it is modelled here
restricted to the flat action objects of the oracle contract (an object
whose values are strings, integers, booleans or null). Any other
response shape is treated as undecodable. -/

/-- JSON whitespace. -/
def is_json_ws (c : Char) : Bool :=
  c = ' ' || c = '\n' || c = '\t' || c = '\r'

/-- Parse the body of a JSON string literal after the opening quote,
handling the simple escapes; returns the decoded characters and the
remaining input after the closing quote. -/
def parse_str_body : List Char → Option (List Char × List Char)
  | [] => none
  | '"' :: rest => some ([], rest)
  | '\\' :: e :: rest =>
    match parse_str_body rest with
    | none => none
    | some (body, rem) =>
      if e = '"' then some ('"' :: body, rem)
      else if e = '\\' then some ('\\' :: body, rem)
      else if e = '/' then some ('/' :: body, rem)
      else if e = 'n' then some ('\n' :: body, rem)
      else if e = 't' then some ('\t' :: body, rem)
      else if e = 'r' then some ('\r' :: body, rem)
      else none
  | c :: rest =>
    match parse_str_body rest with
    | none => none
    | some (body, rem) => some (c :: body, rem)

/-- Parse a run of decimal digits into a natural number. -/
def parse_digits : List Char → Nat → Option (Nat × List Char)
  | [], acc => some (acc, [])
  | c :: rest, acc =>
    if c.isDigit then parse_digits rest (acc * 10 + (c.toNat - 48))
    else some (acc, c :: rest)

/-- Parse one primitive JSON value (string, integer, boolean, null). -/
def parse_prim (s : List Char) : Option (JVal × List Char) :=
  match s with
  | '"' :: rest =>
    match parse_str_body rest with
    | some (body, rem) => some (.str (String.mk body), rem)
    | none => none
  | '-' :: c :: rest =>
    if c.isDigit then
      match parse_digits (c :: rest) 0 with
      | some (n, rem) => some (.num (-(n : Int)), rem)
      | none => none
    else none
  | 't' :: 'r' :: 'u' :: 'e' :: rest => some (.bool true, rest)
  | 'f' :: 'a' :: 'l' :: 's' :: 'e' :: rest => some (.bool false, rest)
  | 'n' :: 'u' :: 'l' :: 'l' :: rest => some (.null, rest)
  | c :: rest =>
    if c.isDigit then
      match parse_digits (c :: rest) 0 with
      | some (n, rem) => some (.num (n : Int), rem)
      | none => none
    else none
  | [] => none

/-- Insert a key/value pair into a dict the way Python does: replace the
value in place when the key exists, otherwise append. -/
def dict_insert (d : Dict) (k : String) (v : JVal) : Dict :=
  match d with
  | [] => [(k, v)]
  | (k', v') :: rest =>
    if k' = k then (k', v) :: rest else (k', v') :: dict_insert rest k v

/-- Parse the members of a JSON object after the first key has been
reached; fueled by the input length. -/
def parse_members (fuel : Nat) (acc : Dict) (s : List Char) : Option (Dict × List Char) :=
  match fuel with
  | 0 => none
  | fuel + 1 =>
    match (s.dropWhile is_json_ws) with
    | '"' :: rest =>
      match parse_str_body rest with
      | none => none
      | some (key, rem) =>
        match rem.dropWhile is_json_ws with
        | ':' :: rem2 =>
          match parse_prim (rem2.dropWhile is_json_ws) with
          | none => none
          | some (v, rem3) =>
            let acc' := dict_insert acc (String.mk key) v
            match rem3.dropWhile is_json_ws with
            | ',' :: rem4 => parse_members fuel acc' rem4
            | c :: rem4 => if c = cbrace then some (acc', rem4) else none
            | [] => none
        | _ => none
    | _ => none

/-- Model of `json.loads` restricted to the flat action objects of the
oracle contract: a single object whose values are primitives, with
optional surrounding whitespace. -/
def json_loads (s : String) : Option Dict :=
  match s.data.dropWhile is_json_ws with
  | c :: rest =>
    if c = obrace then
      match rest.dropWhile is_json_ws with
      | c' :: rest' =>
        if c' = cbrace then
          if (rest'.dropWhile is_json_ws).isEmpty then some [] else none
        else
          match parse_members (rest.length + 1) [] rest with
          | some (d, rem) =>
            if (rem.dropWhile is_json_ws).isEmpty then some d else none
          | none => none
      | [] => none
    else none
  | [] => none

/-- Leftmost match of the pattern used to salvage a JSON object from a
markdown-wrapped response: an opening brace, one or more characters none
of which is a closing brace, then a closing brace. -/
def regex_obj_search : List Char → Option (List Char)
  | [] => none
  | c :: rest =>
    if c = obrace then
      let run := rest.takeWhile (fun d => d ≠ cbrace)
      let rem := rest.dropWhile (fun d => d ≠ cbrace)
      if !run.isEmpty && !rem.isEmpty then some (c :: run ++ [cbrace])
      else regex_obj_search rest
    else regex_obj_search rest

/-- The safe default action substituted on decode failure:
`{"action": "wait", "seconds": 1}`. -/
def default_wait : Dict := [("action", JVal.str "wait"), ("seconds", JVal.num 1)]

/-- One oracle (LLM) call, as seen at the `decide_next_action` boundary:
either the transport raises or it returns the message content string
(`""` standing for an empty or missing content). -/
inductive OracleResult where
  | raises
  | returns (content : String)
deriving DecidableEq, Repr

/-- The `except json.JSONDecodeError` handler of `decide_next_action`:
search the content for a braced fragment; if it parses as an object
containing an `action` field return that object, otherwise return the
default wait action. The recent-actions list is never touched here. -/
def decode_fallback (content : String) : Dict :=
  match regex_obj_search content.data with
  | some frag =>
    match json_loads (String.mk frag) with
    | some a => if (dict_get a "action").isSome then a else default_wait
    | none => default_wait
  | none => default_wait

/-- `NavigationAgent.decide_next_action`, from the first oracle call on:
parse the response, reject an empty content or a missing `action`
discriminant to the default wait action, run loop detection, on a loop
re-ask once (`r2`) and take whatever parses from the re-ask, record the
finally chosen action in `recent_actions` capped at ten entries, and on
any decode failure fall back without recording. Returns the chosen
action together with the updated recent-actions list. -/
def decide_next_action (recent : List String) (r1 r2 : OracleResult) :
    Dict × List String :=
  match r1 with
  | .raises => (default_wait, recent)
  | .returns content =>
    if content = "" then (default_wait, recent)
    else
      match json_loads content with
      | none => (decode_fallback content, recent)
      | some action =>
        if (dict_get action "action").isNone then (default_wait, recent)
        else
          let looped := (detect_loop recent action).1
          if looped then
            match r2 with
            | .raises => (default_wait, recent)
            | .returns content2 =>
              if content2 = "" then
                (action, record_action recent (dumps action))
              else
                match json_loads content2 with
                | none => (decode_fallback content2, recent)
                | some action2 =>
                  (action2, record_action recent (dumps action2))
          else
            (action, record_action recent (dumps action))

/-! Element-resolution cascades (`BrowserController.click_by_text` and
`BrowserController.fill_input`). Each Playwright strategy lambda is an
external collaborator; a strategy's attempt is modelled by an oracle
giving `none` when the locate-and-interact call completes within its 5s
timeout and `some err` when it raises. -/

/-- The six click strategies, in the order of the `strategies` list of
`click_by_text`. -/
inductive ClickStrat where
  | exactText
  | partialText
  | buttonRole
  | linkRole
  | textContent
  | ariaLabel
deriving DecidableEq, Repr

/-- The `strategies` list of `click_by_text`. -/
def click_strategies : List ClickStrat :=
  [.exactText, .partialText, .buttonRole, .linkRole, .textContent, .ariaLabel]

/-- The seven fill strategies, in the order of the `strategies` list of
`fill_input`. -/
inductive FillStrat where
  | byPlaceholder
  | byLabel
  | byRoleTextbox
  | byAriaLabelAttr
  | byNameAttr
  | byPlaceholderContains
  | passwordFallback
deriving DecidableEq, Repr

/-- The `strategies` list of `fill_input`. -/
def fill_strategies : List FillStrat :=
  [.byPlaceholder, .byLabel, .byRoleTextbox, .byAriaLabelAttr, .byNameAttr,
   .byPlaceholderContains, .passwordFallback]

/-- Does `needle` occur as a contiguous substring of `hay`? (Python
`needle in hay`.) -/
def str_contains (hay needle : List Char) : Bool :=
  match hay with
  | [] => needle.isEmpty
  | _ :: rest => needle.isPrefixOf hay || str_contains rest needle

/-- The first `for strategy in strategies` loop: attempt each strategy in
order, short-circuiting on the first success, while recording every
failure into `last_error`. Returns the attempted strategies, the
successful one (if any) and the final `last_error`. -/
def first_pass {σ : Type} (o : σ → Option String) :
    List σ → Option String → List σ × Option σ × Option String
  | [], le => ([], none, le)
  | s :: rest, le =>
    match o s with
    | none => ([s], some s, le)
    | some e =>
      let (att, r, le') := first_pass o rest (some e)
      (s :: att, r, le')

/-- The retry loop run after the one-second pause: attempt a prefix of
the strategies once more, ignoring errors (`except: continue`). -/
def retry_pass {σ : Type} (o : σ → Option String) :
    List σ → List σ × Option σ
  | [] => ([], none)
  | s :: rest =>
    match o s with
    | none => ([s], some s)
    | some _ =>
      let (att, r) := retry_pass o rest
      (s :: att, r)

/-- The outcome of a cascade: every attempt as a (pass, strategy) pair in
order, whether the one-second pause was taken, and either the winning
(pass, strategy) or the raised error message. -/
structure CascadeRun (σ : Type) where
  attempts : List (Nat × σ)
  slept : Bool
  result : Except String (Nat × σ)
deriving Repr

/-- The message of the exception raised when `click_by_text` exhausts
every strategy. -/
def click_err_msg (text : String) (last_error : Option String) : String :=
  "Could not find element with text: " ++ text ++ ". Last error: " ++
    (match last_error with | some e => e | none => "None")

/-- The message of the exception raised when `fill_input` exhausts every
strategy. -/
def fill_err_msg (label : String) (last_error : Option String) : String :=
  "Could not find input with label/placeholder: " ++ label ++ ". Last error: " ++
    (match last_error with | some e => e | none => "None")

/-- `BrowserController.click_by_text`: try the six strategies in order;
on total failure with `retry=True`, sleep one second and retry the first
three strategies; finally raise with the target text and the last error
recorded by the first pass. -/
def click_by_text (text : String) (retry : Bool)
    (o1 o2 : ClickStrat → Option String) : CascadeRun ClickStrat :=
  let (att1, r1, le) := first_pass o1 click_strategies none
  match r1 with
  | some s => ⟨att1.map (fun t => (1, t)), false, .ok (1, s)⟩
  | none =>
    if retry then
      let (att2, r2) := retry_pass o2 (click_strategies.take 3)
      match r2 with
      | some s =>
        ⟨att1.map (fun t => (1, t)) ++ att2.map (fun t => (2, t)), true, .ok (2, s)⟩
      | none =>
        ⟨att1.map (fun t => (1, t)) ++ att2.map (fun t => (2, t)), true,
          .error (click_err_msg text le)⟩
    else
      ⟨att1.map (fun t => (1, t)), false, .error (click_err_msg text le)⟩

/-- The guard inside fill strategy 7: it only attempts the visible
password locator when the requested label contains "password"
(lower-cased); otherwise the lambda itself raises. -/
def fill_outcome (label : String) (o : FillStrat → Option String) :
    FillStrat → Option String
  | .passwordFallback =>
    if str_contains (label.data.map Char.toLower) "password".data then o .passwordFallback
    else some "Not a password"
  | s => o s

/-- `BrowserController.fill_input`: try the seven strategies in order
(the password fallback gated on the label); on total failure with
`retry=True`, sleep one second and retry the first four strategies;
finally raise with the label and the last error recorded by the first
pass. -/
def fill_input (label : String) (retry : Bool)
    (o1 o2 : FillStrat → Option String) : CascadeRun FillStrat :=
  let (att1, r1, le) := first_pass (fill_outcome label o1) fill_strategies none
  match r1 with
  | some s => ⟨att1.map (fun t => (1, t)), false, .ok (1, s)⟩
  | none =>
    if retry then
      let (att2, r2) := retry_pass (fill_outcome label o2) (fill_strategies.take 4)
      match r2 with
      | some s =>
        ⟨att1.map (fun t => (1, t)) ++ att2.map (fun t => (2, t)), true, .ok (2, s)⟩
      | none =>
        ⟨att1.map (fun t => (1, t)) ++ att2.map (fun t => (2, t)), true,
          .error (fill_err_msg label le)⟩
    else
      ⟨att1.map (fun t => (1, t)), false, .error (fill_err_msg label le)⟩

/-! Action dispatch (`orchestrator.execute_action`) and the per-step
settling waits of `run_task`. Browser calls and sleeps are recorded as
effects; sleep durations are rationals since the settle buffer is half a
second. -/

/-- An observable side effect of dispatching or settling one action. -/
inductive Effect where
  | clickText (t : JVal)
  | fillField (f v : JVal)
  | pressKey (k : JVal)
  | scrollPage (d : JVal)
  | sleepFor (s : ℚ)
  | settleWait
deriving DecidableEq, Repr

/-- The validation Python `time.sleep` applies to its argument: only a
non-negative number is accepted (booleans coerce to 0/1); a negative
number raises `ValueError` and any other value raises `TypeError`
(messages modelled on CPython's). -/
def py_sleep : JVal → Except String ℚ
  | .num n =>
    if 0 ≤ n then .ok (n : ℚ)
    else .error "sleep length must be non-negative"
  | .bool b => .ok (if b then 1 else 0)
  | _ => .error "an integer is required"

/-- `execute_action`: map the action dict to the corresponding browser
call, validating required fields first; a `wait` action sleeps its
`seconds` itself; `finish` is a no-op; an unknown discriminant raises. -/
def execute_action (action : Dict) : Except String (List Effect) :=
  let action_type := dict_get action "action"
  if action_type = some (.str "click") then
    let target_text := dict_get action "target_text"
    if !py_truthy target_text then
      .error ("Click action requires " ++ squote ++ "target_text" ++ squote)
    else .ok [.clickText ((target_text).getD .null)]
  else if action_type = some (.str "type") then
    let target_field := dict_get action "target_field"
    let text := dict_get action "text"
    let text_is_none := text = none ∨ text = some .null
    if !py_truthy target_field ∨ text_is_none then
      .error ("Type action requires " ++ squote ++ "target_field" ++ squote ++
        " and " ++ squote ++ "text" ++ squote)
    else .ok [.fillField (target_field.getD .null) (text.getD .null)]
  else if action_type = some (.str "press") then
    let key := dict_get action "key"
    if !py_truthy key then
      .error ("Press action requires " ++ squote ++ "key" ++ squote)
    else .ok [.pressKey (key.getD .null)]
  else if action_type = some (.str "scroll") then
    .ok [.scrollPage (dict_getD action "direction" (.str "down"))]
  else if action_type = some (.str "wait") then
    match py_sleep (dict_getD action "seconds" (.num 1)) with
    | .ok q => .ok [.sleepFor q]
    | .error e => .error e
  else if action_type = some (.str "finish") then
    .ok []
  else
    .error ("Unknown action type: " ++ fmt_get action "action")

/-- The settling block of `run_task` (after action execution): an
explicit wait sleeps its `seconds` again — this `time.sleep` sits
outside any `try`, so an invalid `seconds` value raises uncaught here;
type/click/press wait for network settle plus a half-second buffer;
anything else waits for network settle only (`wait_for_change` swallows
its own errors internally and never raises). -/
def settle_effects (action : Dict) : Except String (List Effect) :=
  let action_type := dict_get action "action"
  if action_type = some (.str "wait") then
    match py_sleep (dict_getD action "seconds" (.num 1)) with
    | .ok q => .ok [.sleepFor q]
    | .error e => .error e
  else if action_type = some (.str "type") ∨ action_type = some (.str "click") ∨
      action_type = some (.str "press") then
    .ok [.settleWait, .sleepFor (1 / 2)]
  else
    .ok [.settleWait]

/-- Total explicitly slept time in a list of effects. -/
def sleep_sum (effs : List Effect) : ℚ :=
  effs.foldr (fun e acc => match e with | .sleepFor q => q + acc | _ => acc) 0

/-- Total explicitly slept time for one step of `run_task` on a given
action: the dispatcher's own sleeps (when dispatch succeeds) plus the
settling block's sleeps (when the settle sleep does not raise). -/
def step_sleep_total (action : Dict) : ℚ :=
  (match execute_action action with
   | .ok effs => sleep_sum effs
   | .error _ => 0) +
  (match settle_effects action with
   | .ok effs => sleep_sum effs
   | .error _ => 0)

/-- A convenient constructor for the wait action the oracle schema
produces. -/
def wait_action (n : Int) : Dict :=
  [("action", JVal.str "wait"), ("seconds", JVal.num n)]

/-! The step loop of `run_task` (`orchestrator.py`). The oracle and the
browser are external collaborators, abstracted per step: the decided
action dict, whether `execute_action` raises (and with what message),
and whether each of the screenshot calls of that iteration raises.
Screenshot calls re-raise their Playwright error
(`BrowserController.screenshot`), while `get_text_snapshot` and
`get_interactive_elements` swallow their own errors internally and so
never raise; the tracker state has no influence on control flow (its
output feeds only prompts and the logged element summaries), so element
snapshots are not threaded here. -/

/-- The external behaviour of one loop iteration. -/
structure StepEnv where
  action : Dict
  exec_error : Option String
  ss_before_error : Option String
  ss_error_error : Option String
  ss_after_error : Option String
  ss_final_error : Option String
deriving Repr

/-- One record of the `history` list (step index, the action dict, the
success flag and the error message of a failed execution; screenshot
names and URLs are bookkeeping not modelled here). -/
structure HistoryStep where
  step : Nat
  action : Dict
  success : Bool
  error : Option String
deriving DecidableEq, Repr

/-- How the `while` loop of `run_task` ended. -/
inductive LoopExit where
  | finished
  | budget
  | failures
  | fatal (msg : String)
deriving DecidableEq, Repr

/-- Does the action dict carry the `finish` discriminant? -/
def is_finish_action (a : Dict) : Bool :=
  dict_get a "action" = some (.str "finish")

/-- `max_consecutive_failures` of `run_task`. -/
def max_consecutive_failures : Nat := 5

/-- The `while step_count < max_steps` loop of `run_task`, fueled by the
remaining step budget. A `finish` action takes a final screenshot and
breaks before anything is appended to history; an uncaught screenshot
error aborts the run (only `execute_action` sits inside the per-step
`try`); the settle block runs after the execution attempt whether it
succeeded or failed, and its own `time.sleep` on an invalid wait
`seconds` raises uncaught and aborts the run before the step is
appended; a failed execution appends a failure record and breaks before
incrementing `step_count` once five consecutive failures accumulate. -/
def run_loop (env : Nat → StepEnv) :
    Nat → Nat → Nat → List HistoryStep → LoopExit × List HistoryStep × Nat
  | 0, step_count, _, history => (.budget, history, step_count)
  | fuel + 1, step_count, consecutive_failures, history =>
    let e := env step_count
    if is_finish_action e.action then
      match e.ss_final_error with
      | some m => (.fatal m, history, step_count)
      | none => (.finished, history, step_count)
    else
      match e.ss_before_error with
      | some m => (.fatal m, history, step_count)
      | none =>
        match e.exec_error with
        | none =>
          match settle_effects e.action with
          | .error m => (.fatal m, history, step_count)
          | .ok _ =>
            match e.ss_after_error with
            | some m => (.fatal m, history, step_count)
            | none =>
              run_loop env fuel (step_count + 1) 0
                (history ++ [⟨step_count, e.action, true, none⟩])
        | some msg =>
          match e.ss_error_error with
          | some m => (.fatal m, history, step_count)
          | none =>
            match settle_effects e.action with
            | .error m => (.fatal m, history, step_count)
            | .ok _ =>
              match e.ss_after_error with
              | some m => (.fatal m, history, step_count)
              | none =>
                let history' := history ++ [⟨step_count, e.action, false, some msg⟩]
                if max_consecutive_failures ≤ consecutive_failures + 1 then
                  (.failures, history', step_count)
                else
                  run_loop env fuel (step_count + 1) (consecutive_failures + 1) history'

/-- The outcome of `run_task`: how the loop exited, the persisted trace
fields (`total_steps`, `task_completed`, `steps`) and the `success`
field of the returned summary. On a fatal exit the source returns only
`success=False` with the error and writes no trace; the loop state at
abort is still recorded here for specification purposes. -/
structure RunResult where
  exit_kind : LoopExit
  history : List HistoryStep
  total_steps : Nat
  task_completed : Bool
  success : Bool
deriving DecidableEq, Repr

/-- `run_task` from the top of the step loop on: run the loop, then
compute `task_completed` by scanning history for a `finish` action, and
report that same flag as the overall `success`. -/
def run_task (env : Nat → StepEnv) (max_steps : Nat) : RunResult :=
  match run_loop env max_steps 0 0 [] with
  | (.fatal m, history, step_count) =>
    ⟨.fatal m, history, step_count, false, false⟩
  | (exit, history, step_count) =>
    let task_completed := history.any (fun s => is_finish_action s.action)
    ⟨exit, history, step_count, task_completed, task_completed⟩

/-! Concrete instances used by the closed theorems below. -/

/-- A button descriptor as produced by `get_interactive_elements`. -/
def eBtn : Dict := [("type", JVal.str "button"), ("text", JVal.str "Save")]

/-- A button descriptor whose visible text contains a colon. -/
def eColon : Dict := [("type", JVal.str "button"), ("text", JVal.str "a:b")]

/-- An environment in which the oracle answers `finish` immediately and
no collaborator call fails. -/
def env_finish : Nat → StepEnv :=
  fun _ => ⟨[("action", JVal.str "finish"), ("summary", JVal.str "done")],
    none, none, none, none, none⟩

/-- A click action dict. -/
def click_ok : Dict := [("action", JVal.str "click"), ("target_text", JVal.str "OK")]

/-- An environment in which every dispatched action raises and every
screenshot succeeds. -/
def env_fail : Nat → StepEnv :=
  fun _ => ⟨click_ok, some "boom", none, none, none, none⟩

/-- An environment in which the pre-action screenshot raises on the very
first step. -/
def env_shot_fail : Nat → StepEnv :=
  fun _ => ⟨click_ok, none, some "Screenshot failed", none, none, none⟩

/-- An environment in which the oracle answers a wait action with
negative seconds: `execute_action` raises a caught `ValueError`, and the
settle block's own `time.sleep` then raises uncaught. -/
def env_badwait : Nat → StepEnv :=
  fun _ => ⟨wait_action (-1), some "sleep length must be non-negative",
    none, none, none, none⟩

/-- A markdown-wrapped oracle response: invalid JSON as a whole, but
containing a braced `click` fragment. -/
def md_click : String :=
  "```json " ++ String.mk [obrace] ++ "\"action\": \"click\"" ++ String.mk [cbrace] ++ " ```"

/-- A click-strategy oracle whose exact-text attempt raises and whose
substring attempt succeeds. -/
def o_second : ClickStrat → Option String :=
  fun s => if s = .exactText then some "miss" else none

/-- A click-strategy oracle on which every attempt raises. -/
def o_none : ClickStrat → Option String := fun _ => some "no match"

/-- A fill-strategy oracle on which every attempt raises. -/
def o_nofill : FillStrat → Option String := fun _ => some "no input"

/-- A well-formed click response as raw JSON text. -/
def json_click : String :=
  String.mk [obrace] ++ "\"action\": \"click\", \"target_text\": \"OK\"" ++ String.mk [cbrace]

/-- A well-formed scroll response as raw JSON text. -/
def json_scroll : String :=
  String.mk [obrace] ++ "\"action\": \"scroll\", \"direction\": \"up\"" ++ String.mk [cbrace]

/-- The action dict `json_scroll` decodes to. -/
def scroll_up : Dict := [("action", JVal.str "scroll"), ("direction", JVal.str "up")]

/-- A well-formed response lacking the `action` discriminant. -/
def json_noact : String :=
  String.mk [obrace] ++ "\"foo\": 1" ++ String.mk [cbrace]

/-- A two-entry dict. -/
def dAB : Dict := [("a", JVal.num 1), ("b", JVal.num 2)]

/-- The bindings of `dAB` in the opposite order. -/
def dBA : Dict := [("b", JVal.num 2), ("a", JVal.num 1)]

/-- A full ring of ten recorded serializations. -/
def rec10 : List String := ["0", "1", "2", "3", "4", "5", "6", "7", "8", "9"]

/-- Two prior recordings of the serialized click action. -/
def rec2 : List String := [dumps click_ok, dumps click_ok]

/-! Theorems. -/

/-- C2: the first `compute_changes` call after construction or `reset`
does not return an empty diff: every input element is reported in
`new_elements` and `has_changes` is true for the nonempty snapshot
`[eBtn]`, refuting the claimed empty first diff. -/
theorem C2_first_call_not_empty :
    (compute_changes initial_tracker [eBtn] "https://a.example").1.new_elements = [eBtn] ∧
    (compute_changes initial_tracker [eBtn] "https://a.example").1.has_changes = true := by
  constructor <;> rfl

/-- C2 (amended): the first `compute_changes` call returns all input
elements as `new_elements`, no removed elements, no URL change, and
`has_changes` true exactly when the snapshot is nonempty, while seeding
the stored key set and URL from the inputs. -/
theorem C2_first_call_seeds :
    ∀ (elems : List Dict) (url : String),
      compute_changes initial_tracker elems url =
        (⟨elems, [], false, !elems.isEmpty⟩,
         ⟨(elems.map element_key).dedup, some url⟩) := by
  intro elems url
  unfold compute_changes initial_tracker
  simp only
  have hfilter :
      (elems.map element_key).dedup.filter
        (fun k => !(List.contains ([] : List (List Char)) k)) =
        (elems.map element_key).dedup := by
    simp [List.contains]
  rw [hfilter]
  have hnew : elems.filter
      (fun e => ((elems.map element_key).dedup).contains (element_key e)) = elems := by
    apply List.filter_eq_self.mpr
    intro e he
    simpa using List.mem_map_of_mem element_key he
  rw [hnew]
  cases elems <;> simp

/-- C3: dispatching `Wait{2}` through `execute_action` is not a no-op —
it sleeps the two seconds itself — and the total wait performed for the
step is four seconds, not the requested two. -/
theorem C3_wait_dispatch_sleeps :
    execute_action (wait_action 2) = .ok [.sleepFor 2] ∧
    step_sleep_total (wait_action 2) = 4 ∧
    execute_action (wait_action 2) ≠ .ok [] ∧
    step_sleep_total (wait_action 2) ≠ 2 := by
  have h4 : step_sleep_total (wait_action 2) = 4 := by
    unfold step_sleep_total
    rw [show execute_action (wait_action 2) = .ok [.sleepFor 2] from rfl,
        show settle_effects (wait_action 2) = .ok [.sleepFor 2] from rfl]
    norm_num [sleep_sum]
  refine ⟨rfl, h4, ?_, ?_⟩
  · rw [show execute_action (wait_action 2) = .ok [.sleepFor 2] from rfl]
    simp
  · rw [h4]
    norm_num

/-- C3 (amended): for every `Wait{n}` action with non-negative numeric
seconds, the dispatcher itself sleeps `n` seconds (performing no browser
call), the settling phase sleeps the same `n` seconds again, and the
total wait for the step is `2 * n` seconds; with negative seconds the
dispatcher's own sleep raises a `ValueError` caught as a step failure,
and the settle block's uncaught sleep raises the same error fatally. -/
theorem C3_wait_total_twice :
    ∀ n : Int,
      (0 ≤ n →
        execute_action (wait_action n) = .ok [.sleepFor (n : ℚ)] ∧
        settle_effects (wait_action n) = .ok [.sleepFor (n : ℚ)] ∧
        step_sleep_total (wait_action n) = 2 * (n : ℚ)) ∧
      (n < 0 →
        execute_action (wait_action n) = .error "sleep length must be non-negative" ∧
        settle_effects (wait_action n) = .error "sleep length must be non-negative") := by
  intro n
  constructor
  · intro hn
    have he : execute_action (wait_action n) = .ok [.sleepFor (n : ℚ)] := by
      simp [execute_action, wait_action, dict_get, dict_getD, py_sleep, hn]
    have hs : settle_effects (wait_action n) = .ok [.sleepFor (n : ℚ)] := by
      simp [settle_effects, wait_action, dict_get, dict_getD, py_sleep, hn]
    refine ⟨he, hs, ?_⟩
    unfold step_sleep_total
    rw [he, hs]
    simp [sleep_sum]
    ring
  · intro hn
    have hn' : ¬ (0 ≤ n) := by omega
    constructor
    · simp [execute_action, wait_action, dict_get, dict_getD, py_sleep, hn']
    · simp [settle_effects, wait_action, dict_get, dict_getD, py_sleep, hn']

/-- C3 witness: both halves of the amended wait behaviour at the
concrete seconds 2 and -1. -/
theorem C3_wait_total_twice_witness :
    (execute_action (wait_action 2) = .ok [.sleepFor ((2 : Int) : ℚ)] ∧
     settle_effects (wait_action 2) = .ok [.sleepFor ((2 : Int) : ℚ)] ∧
     step_sleep_total (wait_action 2) = 2 * ((2 : Int) : ℚ)) ∧
    (execute_action (wait_action (-1)) = .error "sleep length must be non-negative" ∧
     settle_effects (wait_action (-1)) = .error "sleep length must be non-negative") :=
  ⟨(C3_wait_total_twice 2).1 (by decide), (C3_wait_total_twice (-1)).2 (by decide)⟩

/-- Splitting at the first colon of `T ++ ':' :: rest` finds the
separator when `T` itself is colon-free. -/
theorem split_fc_no_colon (T : List Char) (h : ':' ∉ T) (rest : List Char) :
    split_first_colon (T ++ ':' :: rest) = some (T, rest) := by
  induction T with
  | nil => simp [split_first_colon]
  | cons c cs ih =>
    have hc : c ≠ ':' := fun hh => h (hh ▸ List.mem_cons_self c cs)
    have hcs : ':' ∉ cs := fun hh => h (List.mem_cons_of_mem c hh)
    simp only [List.cons_append, split_first_colon, if_neg hc, List.append_eq]
    rw [ih hcs]

/-- Splitting `X ++ ':' :: I` at the first colon yields the colon-free
head of `X`, whether or not `X` itself contains a colon. -/
theorem split_fc_take (X I : List Char) :
    ∃ r, split_first_colon (X ++ ':' :: I) =
      some (X.takeWhile (fun c => c != ':'), r) := by
  induction X with
  | nil => exact ⟨I, by simp [split_first_colon, List.takeWhile]⟩
  | cons c cs ih =>
    by_cases hc : c = ':'
    · subst hc
      exact ⟨cs ++ ':' :: I, by simp [split_first_colon, List.takeWhile]⟩
    · obtain ⟨r, hr⟩ := ih
      refine ⟨r, ?_⟩
      simp only [List.cons_append, split_first_colon, if_neg hc, List.append_eq]
      rw [hr]
      simp [List.takeWhile_cons, hc]

/-- C7: when a vanished element's text contains a colon, the
reconstructed minimal descriptor does not carry the element's text: the
element with text `a:b` is reconstructed with text `a`, and no removed
descriptor carries the original text, refuting the claimed equality of
text fields. -/
theorem C7_removed_text_truncated_cex :
    (compute_changes (compute_changes initial_tracker [eColon] "https://a.example").2
        [] "https://a.example").1.removed_elements =
      [[("type", JVal.str "button"), ("text", JVal.str "a")]] ∧
    ∀ dsc ∈ (compute_changes (compute_changes initial_tracker [eColon] "https://a.example").2
        [] "https://a.example").1.removed_elements,
      dict_get dsc "text" ≠ some (JVal.str "a:b") := by
  refine ⟨rfl, ?_⟩
  intro dsc hd
  rw [show (compute_changes (compute_changes initial_tracker [eColon] "https://a.example").2
        [] "https://a.example").1.removed_elements =
      [[("type", JVal.str "button"), ("text", JVal.str "a")]] from rfl] at hd
  simp only [List.mem_singleton] at hd
  subst hd
  simp [dict_get]

/-- C7 (amended): across two consecutive `compute_changes` calls, every
element of the previous snapshot whose key is no longer present appears
in `removed_elements` as a minimal descriptor whose `type` field equals
the formatted type of the vanished element and whose `text` field equals
the vanished element's text truncated at its first colon (hence the full
text whenever it is colon-free), provided the type itself is colon-free;
no other fields are present. -/
theorem C7_removed_minimal_descriptor :
    ∀ (s0 : TrackerState) (prev_elems : List Dict) (prev_url : String)
      (elems : List Dict) (url : String) (e : Dict),
      e ∈ prev_elems →
      element_key e ∉ elems.map element_key →
      ':' ∉ (fmt_get e "type").data →
      ∃ dsc ∈ (compute_changes (compute_changes s0 prev_elems prev_url).2 elems url).1.removed_elements,
        dict_get dsc "type" = some (.str (fmt_get e "type")) ∧
        dict_get dsc "text" =
          some (.str (String.mk ((fmt_getD e "text").data.takeWhile (fun c => c != ':')))) := by
  intro s0 prev_elems prev_url elems url e he hnc htype
  have hstate : (compute_changes s0 prev_elems prev_url).2.previous_elements =
      (prev_elems.map element_key).dedup := rfl
  have hrem : (compute_changes (compute_changes s0 prev_elems prev_url).2 elems url).1.removed_elements =
      ((compute_changes s0 prev_elems prev_url).2.previous_elements.filter
        (fun k => !(((elems.map element_key).dedup).contains k))).filterMap
        (fun k =>
          if 2 ≤ (py_split_colon2 k).length then
            some [("type", JVal.str (String.mk ((py_split_colon2 k).getD 0 []))),
                  ("text", JVal.str (String.mk ((py_split_colon2 k).getD 1 [])))]
          else none) := rfl
  have hk_mem : element_key e ∈ (prev_elems.map element_key).dedup :=
    List.mem_dedup.mpr (List.mem_map_of_mem element_key he)
  have hnotin : element_key e ∉ (elems.map element_key).dedup :=
    fun h => hnc (List.mem_dedup.mp h)
  have hk_not : (((elems.map element_key).dedup).contains (element_key e)) = false := by
    cases hcc : (((elems.map element_key).dedup).contains (element_key e)) with
    | false => rfl
    | true => exact absurd (List.mem_of_elem_eq_true hcc) hnotin
  have hfilter : element_key e ∈ (prev_elems.map element_key).dedup.filter
      (fun k => !(((elems.map element_key).dedup).contains k)) :=
    List.mem_filter.mpr ⟨hk_mem, by rw [hk_not]; rfl⟩
  have hkey : element_key e = (fmt_get e "type").data ++ ':' ::
      ((fmt_getD e "text").data ++ ':' :: (fmt_getD e "input_type").data) := by
    show ((fmt_get e "type").data ++ ':' :: (fmt_getD e "text").data) ++ ':' ::
      (fmt_getD e "input_type").data = _
    simp [List.append_assoc]
  obtain ⟨r, hr⟩ := split_fc_take (fmt_getD e "text").data (fmt_getD e "input_type").data
  have h1 : split_first_colon (element_key e) =
      some ((fmt_get e "type").data,
        (fmt_getD e "text").data ++ ':' :: (fmt_getD e "input_type").data) := by
    rw [hkey]
    exact split_fc_no_colon _ htype _
  have hsp : py_split_colon2 (element_key e) =
      [(fmt_get e "type").data,
       (fmt_getD e "text").data.takeWhile (fun c => c != ':'), r] := by
    simp only [py_split_colon2, h1, hr]
  refine ⟨[("type", JVal.str (fmt_get e "type")),
           ("text", JVal.str (String.mk ((fmt_getD e "text").data.takeWhile (fun c => c != ':'))))],
          ?_, rfl, rfl⟩
  rw [hrem, hstate]
  apply List.mem_filterMap.mpr
  refine ⟨element_key e, hfilter, ?_⟩
  rw [hsp]
  simp

/-- C7 witness: the amended descriptor property at the concrete
two-call run that removes the colon-texted button. -/
theorem C7_removed_minimal_descriptor_witness :
    ∃ dsc ∈ (compute_changes (compute_changes initial_tracker [eColon] "u").2
        [] "u").1.removed_elements,
      dict_get dsc "type" = some (.str (fmt_get eColon "type")) ∧
      dict_get dsc "text" =
        some (.str (String.mk ((fmt_getD eColon "text").data.takeWhile (fun c => c != ':')))) :=
  C7_removed_minimal_descriptor initial_tracker [eColon] "u" [] "u" eColon
    (by decide) (by decide) (by decide)

/-- Every history record appended by the step loop carries a non-finish
action: the `finish` branch breaks before anything is appended. -/
theorem run_loop_no_finish (env : Nat → StepEnv) :
    ∀ (fuel sc cf : Nat) (hist : List HistoryStep),
      (∀ s ∈ hist, is_finish_action s.action = false) →
      ∀ s ∈ (run_loop env fuel sc cf hist).2.1, is_finish_action s.action = false := by
  intro fuel
  induction fuel with
  | zero =>
    intro sc cf hist hh
    simpa [run_loop] using hh
  | succ n ih =>
    intro sc cf hist hh
    simp only [run_loop]
    split
    · split
      · exact hh
      · exact hh
    · rename_i hfin
      have hfin' : is_finish_action (env sc).action = false := by
        revert hfin
        cases is_finish_action (env sc).action <;> simp
      have hstep : ∀ (b : Bool) (err : Option String),
          ∀ s ∈ hist ++ [HistoryStep.mk sc (env sc).action b err],
            is_finish_action s.action = false := by
        intro b err s hs
        rcases List.mem_append.mp hs with h | h
        · exact hh s h
        · rw [List.mem_singleton.mp h]
          exact hfin'
      split
      · exact hh
      · split
        · split
          · exact hh
          · split
            · exact hh
            · exact ih (sc + 1) 0 _ (hstep true none)
        · split
          · exact hh
          · split
            · exact hh
            · split
              · exact hh
              · split
                · exact hstep false _
                · exact ih (sc + 1) _ _ (hstep false _)

/-- C1: the run never reports success. The `finish` branch of `run_task`
breaks out of the loop before appending anything to history, and
`task_completed` is then computed by scanning history for a `finish`
action, so it is `false` on every run — in particular on the concrete
run where the oracle answers `finish` immediately and the loop exits via
the finishing branch, contradicting the claimed
`taskCompleted = true` / `success = true`. -/
theorem C1_finish_never_completed :
    (∀ (env : Nat → StepEnv) (max_steps : Nat),
      (run_task env max_steps).task_completed = false ∧
      (run_task env max_steps).success = false) ∧
    run_task env_finish 20 = ⟨.finished, [], 0, false, false⟩ := by
  constructor
  · intro env max_steps
    have hnf := run_loop_no_finish env max_steps 0 0 [] (by simp)
    rcases hrl : run_loop env max_steps 0 0 [] with ⟨ek, h, s⟩
    rw [hrl] at hnf
    have hany : h.any (fun s => is_finish_action s.action) = false := by
      rw [List.any_eq_false]
      intro x hx
      simp [hnf x hx]
    cases ek <;> simp [run_task, hrl, hany]
  · rfl

/-- Bookkeeping of the step loop: on every non-fatal exit, the final
`step_count` plus one extra for a consecutive-failures exit accounts
exactly for the history records appended. -/
theorem run_loop_step_count (env : Nat → StepEnv) :
    ∀ (fuel sc cf : Nat) (hist : List HistoryStep) (ek : LoopExit)
      (h : List HistoryStep) (s : Nat),
      run_loop env fuel sc cf hist = (ek, h, s) →
      (∀ m, ek ≠ .fatal m) →
      s + hist.length + (if ek = .failures then 1 else 0) = sc + h.length := by
  intro fuel
  induction fuel with
  | zero =>
    intro sc cf hist ek h s heq hfat
    simp only [run_loop] at heq
    injection heq with h1 h23
    injection h23 with h2 h3
    subst h1; subst h2; subst h3
    simp
  | succ n ih =>
    intro sc cf hist ek h s heq hfat
    simp only [run_loop] at heq
    split at heq
    · split at heq
      · rename_i m hm
        injection heq with h1 h23
        exact absurd h1.symm (hfat _)
      · injection heq with h1 h23
        injection h23 with h2 h3
        subst h1; subst h2; subst h3
        simp
    · split at heq
      · injection heq with h1 h23
        exact absurd h1.symm (hfat _)
      · split at heq
        · split at heq
          · injection heq with h1 h23
            exact absurd h1.symm (hfat _)
          · split at heq
            · injection heq with h1 h23
              exact absurd h1.symm (hfat _)
            · have hc := ih (sc + 1) 0 _ ek h s heq hfat
              simp only [List.length_append, List.length_singleton] at hc
              by_cases hek : ek = .failures <;> simp [hek] at hc ⊢ <;> omega
        · split at heq
          · injection heq with h1 h23
            exact absurd h1.symm (hfat _)
          · split at heq
            · injection heq with h1 h23
              exact absurd h1.symm (hfat _)
            · split at heq
              · injection heq with h1 h23
                exact absurd h1.symm (hfat _)
              · split at heq
                · injection heq with h1 h23
                  injection h23 with h2 h3
                  subst h1; subst h2; subst h3
                  rw [if_pos rfl]
                  simp only [List.length_append, List.length_singleton]
                  omega
                · have hc := ih (sc + 1) _ _ ek h s heq hfat
                  simp only [List.length_append, List.length_singleton] at hc
                  by_cases hek : ek = .failures <;> simp [hek] at hc ⊢ <;> omega

/-- C9: a run ending on the consecutive-failures limit persists
`total_steps = steps.length - 1` (the last failed step is appended but
`step_count` is not incremented before the break), while runs ending via
the finish branch or the step budget persist
`total_steps = steps.length`. -/
theorem C9_total_steps_vs_history :
    ∀ (env : Nat → StepEnv) (max_steps : Nat),
      ((run_task env max_steps).exit_kind = .failures →
        (run_task env max_steps).total_steps + 1 = (run_task env max_steps).history.length) ∧
      ((run_task env max_steps).exit_kind = .finished ∨
          (run_task env max_steps).exit_kind = .budget →
        (run_task env max_steps).total_steps = (run_task env max_steps).history.length) := by
  intro env max_steps
  rcases hrl : run_loop env max_steps 0 0 [] with ⟨ek, h, s⟩
  have hcount := run_loop_step_count env max_steps 0 0 [] ek h s hrl
  cases ek with
  | fatal m =>
    constructor
    · intro hx
      simp only [run_task, hrl] at hx
      simp at hx
    · intro hx
      simp only [run_task, hrl] at hx
      rcases hx with hx | hx <;> simp at hx
  | failures =>
    have hct := hcount (fun m hm => LoopExit.noConfusion hm)
    simp at hct
    constructor
    · intro _
      simp only [run_task, hrl]
      simpa using hct
    · intro hx
      simp only [run_task, hrl] at hx
      rcases hx with hx | hx <;> simp at hx
  | finished =>
    have hct := hcount (fun m hm => LoopExit.noConfusion hm)
    simp at hct
    constructor
    · intro hx
      simp only [run_task, hrl] at hx
      simp at hx
    · intro _
      simp only [run_task, hrl]
      simpa using hct
  | budget =>
    have hct := hcount (fun m hm => LoopExit.noConfusion hm)
    simp at hct
    constructor
    · intro hx
      simp only [run_task, hrl] at hx
      simp at hx
    · intro _
      simp only [run_task, hrl]
      simpa using hct

/-- C9 witness: the failures-exit accounting on the concrete run of five
failed steps, and the budget/finish accounting on the immediate-finish
run. -/
theorem C9_total_steps_vs_history_witness :
    (run_task env_fail 20).total_steps + 1 = (run_task env_fail 20).history.length ∧
    (run_task env_finish 20).total_steps = (run_task env_finish 20).history.length :=
  ⟨(C9_total_steps_vs_history env_fail 20).1 rfl,
   (C9_total_steps_vs_history env_finish 20).2 (Or.inl rfl)⟩

/-- C4: a failed screenshot call after `Init` is not recoverable: on the
concrete run whose first pre-action screenshot raises, the run aborts as
fatal with an empty history — no failure record is appended and the step
loop does not continue, refuting the claim that every post-`Init`
collaborator failure is converted into a failed history step. -/
theorem C4_screenshot_failure_fatal_cex :
    run_task env_shot_fail 20 =
      ⟨.fatal "Screenshot failed", [], 0, false, false⟩ := rfl

/-- C4 (amended): only failures raised by `execute_action` are
recoverable: when the dispatched action raises, the iteration's
screenshot calls succeed and the settle block does not itself raise, the
failure is converted into a history record with `success = false`
carrying the error message, and the loop continues at the next step with
the failure counter bumped (as long as the consecutive-failure limit is
not yet reached). When the settle block raises — a wait action with
invalid `seconds`, whose uncaught `time.sleep` sits outside the per-step
`try` — the run aborts fatally before the failure step is appended. -/
theorem C4_exec_failure_recoverable :
    (∀ (env : Nat → StepEnv) (fuel sc cf : Nat) (hist : List HistoryStep)
       (msg : String) (effs : List Effect),
      is_finish_action (env sc).action = false →
      (env sc).exec_error = some msg →
      (env sc).ss_before_error = none →
      (env sc).ss_error_error = none →
      settle_effects (env sc).action = .ok effs →
      (env sc).ss_after_error = none →
      cf + 1 < max_consecutive_failures →
      run_loop env (fuel + 1) sc cf hist =
        run_loop env fuel (sc + 1) (cf + 1)
          (hist ++ [⟨sc, (env sc).action, false, some msg⟩])) ∧
    (∀ (env : Nat → StepEnv) (fuel sc cf : Nat) (hist : List HistoryStep)
       (msg m : String),
      is_finish_action (env sc).action = false →
      (env sc).exec_error = some msg →
      (env sc).ss_before_error = none →
      (env sc).ss_error_error = none →
      settle_effects (env sc).action = .error m →
      run_loop env (fuel + 1) sc cf hist = (.fatal m, hist, sc)) := by
  constructor
  · intro env fuel sc cf hist msg effs hfin hex hb he hset ha hcf
    simp only [run_loop, hfin, hex, hb, he, hset, ha]
    rw [if_neg (Nat.not_le.mpr hcf)]
    simp
  · intro env fuel sc cf hist msg m hfin hex hb he hset
    simp only [run_loop, hfin, hex, hb, he, hset]
    simp

/-- C4 witness: one failing click iteration of the always-failing run is
exactly one appended failure record plus a continued loop, while the
failing wait iteration with negative seconds aborts fatally with nothing
appended. -/
theorem C4_exec_failure_recoverable_witness :
    run_loop env_fail 4 0 0 [] =
      run_loop env_fail 3 1 1 [⟨0, click_ok, false, some "boom"⟩] ∧
    run_loop env_badwait 4 0 0 [] =
      (.fatal "sleep length must be non-negative", [], 0) :=
  ⟨C4_exec_failure_recoverable.1 env_fail 3 0 0 [] "boom"
     [.settleWait, .sleepFor (1 / 2)] rfl rfl rfl rfl rfl rfl (by decide),
   C4_exec_failure_recoverable.2 env_badwait 3 0 0 []
     "sleep length must be non-negative" "sleep length must be non-negative"
     rfl rfl rfl rfl rfl⟩

/-- Totality of the code-point comparison. -/
theorem chars_le_total : ∀ a b, chars_le a b = true ∨ chars_le b a = true := by
  intro a
  induction a with
  | nil => intro b; left; rfl
  | cons c cs ih =>
    intro b
    cases b with
    | nil => right; rfl
    | cons d ds =>
      by_cases h1 : c.toNat < d.toNat
      · left; simp [chars_le, h1]
      · by_cases h2 : d.toNat < c.toNat
        · right; simp [chars_le, h2]
        · rcases ih ds with h | h
          · left; simp [chars_le, h1, h2, h]
          · right; simp [chars_le, h1, h2, h]

/-- Transitivity of the code-point comparison. -/
theorem chars_le_trans : ∀ a b c, chars_le a b = true → chars_le b c = true →
    chars_le a c = true := by
  intro a
  induction a with
  | nil => intro b c _ _; rfl
  | cons x xs ih =>
    intro b c hab hbc
    cases b with
    | nil => simp [chars_le] at hab
    | cons y ys =>
      cases c with
      | nil => simp [chars_le] at hbc
      | cons z zs =>
        simp only [chars_le] at hab hbc ⊢
        by_cases h1 : x.toNat < y.toNat <;> by_cases h2 : y.toNat < z.toNat
        · simp [show x.toNat < z.toNat by omega]
        · by_cases h3 : z.toNat < y.toNat
          · simp [h2, h3] at hbc
          · have : y.toNat = z.toNat := by omega
            simp [show x.toNat < z.toNat by omega]
        · by_cases h0 : y.toNat < x.toNat
          · simp [h1, h0] at hab
          · have : x.toNat = y.toNat := by omega
            simp [show x.toNat < z.toNat by omega]
        · by_cases h0 : y.toNat < x.toNat
          · simp [h1, h0] at hab
          · by_cases h3 : z.toNat < y.toNat
            · simp [h2, h3] at hbc
            · have hxy : x.toNat = y.toNat := by omega
              have hyz : y.toNat = z.toNat := by omega
              simp only [h1, h0, if_neg, if_false] at hab
              simp only [h2, h3, if_neg, if_false] at hbc
              simp [show ¬ x.toNat < z.toNat by omega, show ¬ z.toNat < x.toNat by omega]
              exact ih ys zs hab hbc

/-- Antisymmetry of the code-point comparison. -/
theorem chars_le_antisymm : ∀ a b, chars_le a b = true → chars_le b a = true → a = b := by
  intro a
  induction a with
  | nil =>
    intro b _ hba
    cases b with
    | nil => rfl
    | cons d ds => simp [chars_le] at hba
  | cons c cs ih =>
    intro b hab hba
    cases b with
    | nil => simp [chars_le] at hab
    | cons d ds =>
      simp only [chars_le] at hab hba
      by_cases h1 : c.toNat < d.toNat
      · simp [show ¬ d.toNat < c.toNat by omega, h1] at hba
      · by_cases h2 : d.toNat < c.toNat
        · simp [h1, h2] at hab
        · have hcd : c = d := by
            have : c.toNat = d.toNat := by omega
            unfold Char.toNat at this
            exact Char.eq_of_val_eq (UInt32.toNat.inj this)
          simp only [h1, h2, if_neg, if_false] at hab hba
          rw [hcd, ih ds hab hba]

/-- Two key-permuted dicts with duplicate-free keys have the same
key-sorted entry list: sorting is canonical, so `sort_keys=True` yields
a stable, order-independent serialization. -/
theorem sort_eq_of_perm (d₁ d₂ : Dict) (hn : (d₁.map Prod.fst).Nodup) (hp : d₁.Perm d₂) :
    List.insertionSort key_le d₁ = List.insertionSort key_le d₂ := by
  haveI : IsTotal (String × JVal) key_le := ⟨fun a b => chars_le_total a.1.data b.1.data⟩
  haveI : IsTrans (String × JVal) key_le :=
    ⟨fun a b c => chars_le_trans a.1.data b.1.data c.1.data⟩
  have hps : (List.insertionSort key_le d₁).Perm (List.insertionSort key_le d₂) :=
    (List.perm_insertionSort key_le d₁).trans (hp.trans (List.perm_insertionSort key_le d₂).symm)
  have hs₁ : List.Sorted key_le (List.insertionSort key_le d₁) :=
    List.sorted_insertionSort key_le d₁
  have hs₂ : List.Sorted key_le (List.insertionSort key_le d₂) :=
    List.sorted_insertionSort key_le d₂
  have hn₁ : ((List.insertionSort key_le d₁).map Prod.fst).Nodup :=
    (((List.perm_insertionSort key_le d₁).map Prod.fst).nodup_iff).mpr hn
  have hn₂ : ((List.insertionSort key_le d₂).map Prod.fst).Nodup :=
    ((hps.map Prod.fst).nodup_iff).mp hn₁
  have hstrict : ∀ (l : Dict), List.Sorted key_le l → (l.map Prod.fst).Nodup →
      List.Sorted (fun a b : String × JVal => key_le a b ∧ a.1 ≠ b.1) l := by
    intro l hs hnd
    exact hs.and (List.pairwise_map.mp hnd)
  haveI : IsAntisymm (String × JVal) (fun a b : String × JVal => key_le a b ∧ a.1 ≠ b.1) :=
    ⟨fun a b h h' =>
      (h.2 (String.toList_inj.mp (chars_le_antisymm a.1.data b.1.data h.1 h'.1))).elim⟩
  exact List.eq_of_perm_of_sorted hps (hstrict _ hs₁ hn₁) (hstrict _ hs₂ hn₂)

/-- C6: the loop detector serializes actions with a stable (key-sorted)
field ordering, flags a loop exactly when that serialization already
occurs at least `max_identical_actions - 1 = 2` times among the last
five recorded actions — the third identical submission in the window —
with a reason naming the action discriminant and the repeat count, and
the ring of recorded serializations never exceeds ten entries, dropping
the oldest on overflow. -/
theorem C6_loop_detection :
    (∀ (d₁ d₂ : Dict), (d₁.map Prod.fst).Nodup → d₁.Perm d₂ → dumps d₁ = dumps d₂) ∧
    (∀ (recent : List String) (a : Dict),
      ((detect_loop recent a).1 = true ↔
        max_identical_actions - 1 ≤ (take_last 5 recent).count (dumps a)) ∧
      (max_identical_actions - 1 ≤ (take_last 5 recent).count (dumps a) →
        (detect_loop recent a).2 =
          "Action " ++ squote ++ fmt_get a "action" ++ squote ++
            " has been attempted " ++
            toString ((take_last 5 recent).count (dumps a) + 1) ++ " times")) ∧
    (∀ (recent : List String) (k : String),
      recent.length ≤ 10 →
      (record_action recent k).length ≤ 10 ∧
      (recent.length = 10 → record_action recent k = recent.drop 1 ++ [k])) := by
  refine ⟨?_, ?_, ?_⟩
  · intro d₁ d₂ hn hp
    unfold dumps
    rw [sort_eq_of_perm d₁ d₂ hn hp]
  · intro recent a
    constructor
    · unfold detect_loop
      by_cases hc : max_identical_actions - 1 ≤ (take_last 5 recent).count (dumps a)
      · rw [if_pos hc]
        simpa using hc
      · rw [if_neg hc]
        simpa using hc
    · intro hc
      unfold detect_loop
      rw [if_pos hc]
  · intro recent k hlen
    unfold record_action
    by_cases h10 : 10 < (recent ++ [k]).length
    · rw [if_pos h10]
      constructor
      · simp only [List.length_drop, List.length_append, List.length_singleton]
        omega
      · intro h
        rw [List.drop_append_of_le_length (by omega)]
    · rw [if_neg h10]
      constructor
      · simp only [List.length_append, List.length_singleton] at h10 ⊢
        omega
      · intro h
        exfalso
        simp only [List.length_append, List.length_singleton] at h10
        omega

/-- C6 witness: stable serialization of the key-permuted pair, the loop
flag and reason on the third identical click, and the ring cap on a full
ring. -/
theorem C6_loop_detection_witness :
    dumps dAB = dumps dBA ∧
    (detect_loop rec2 click_ok).1 = true ∧
    (detect_loop rec2 click_ok).2 =
      "Action " ++ squote ++ fmt_get click_ok "action" ++ squote ++
        " has been attempted " ++
        toString ((take_last 5 rec2).count (dumps click_ok) + 1) ++ " times" ∧
    (record_action rec10 "x").length ≤ 10 ∧
    record_action rec10 "x" = rec10.drop 1 ++ ["x"] :=
  ⟨C6_loop_detection.1 dAB dBA (by decide) (List.Perm.swap ("b", JVal.num 2) ("a", JVal.num 1) []),
   (C6_loop_detection.2.1 rec2 click_ok).1.mpr (by decide),
   (C6_loop_detection.2.1 rec2 click_ok).2 (by decide),
   (C6_loop_detection.2.2 rec10 "x" (by decide)).1,
   (C6_loop_detection.2.2 rec10 "x" (by decide)).2 (by decide)⟩

/-- The first strategy loop short-circuits: with every strategy before
`s` failing and `s` succeeding, the attempted prefix is exactly
`pre ++ [s]`. -/
theorem first_pass_prefix_success {σ : Type} (o : σ → Option String) :
    ∀ (pre : List σ) (s : σ) (post : List σ) (le : Option String),
      (∀ t ∈ pre, o t ≠ none) → o s = none →
      ∃ le', first_pass o (pre ++ s :: post) le = (pre ++ [s], some s, le') := by
  intro pre
  induction pre with
  | nil =>
    intro s post le hpre hs
    exact ⟨le, by simp [first_pass, hs]⟩
  | cons t ts ih =>
    intro s post le hpre hs
    obtain ⟨e, he⟩ : ∃ e, o t = some e :=
      Option.ne_none_iff_exists'.mp (hpre t (List.mem_cons_self t ts))
    obtain ⟨le', hle⟩ := ih s post (some e) (fun u hu => hpre u (List.mem_cons_of_mem t hu)) hs
    refine ⟨le', ?_⟩
    simp only [List.cons_append, List.append_eq, first_pass, he]
    rw [hle]

/-- C5: `click_by_text` attempts exactly the six strategies in the fixed
order, short-circuiting on the first that completes; when all six fail
with `retry=true` it pauses once and re-attempts only the first three
(`fill_input` re-attempts its first four), and finally raises an error
carrying the target text and the last error recorded by the full pass
(the sixth strategy's error). -/
theorem C5_resolution_cascade :
    (click_strategies =
      [.exactText, .partialText, .buttonRole, .linkRole, .textContent, .ariaLabel] ∧
     click_strategies.take 3 = [.exactText, .partialText, .buttonRole] ∧
     fill_strategies.take 4 = [.byPlaceholder, .byLabel, .byRoleTextbox, .byAriaLabelAttr]) ∧
    (∀ (text : String) (retry : Bool) (o1 o2 : ClickStrat → Option String)
      (pre : List ClickStrat) (s : ClickStrat) (post : List ClickStrat),
      click_strategies = pre ++ s :: post →
      (∀ t ∈ pre, o1 t ≠ none) → o1 s = none →
      click_by_text text retry o1 o2 =
        ⟨(pre ++ [s]).map (fun t => (1, t)), false, .ok (1, s)⟩) ∧
    (∀ (text : String) (o1 o2 : ClickStrat → Option String)
      (e1 e2 e3 e4 e5 e6 f1 f2 f3 : String),
      o1 .exactText = some e1 → o1 .partialText = some e2 → o1 .buttonRole = some e3 →
      o1 .linkRole = some e4 → o1 .textContent = some e5 → o1 .ariaLabel = some e6 →
      o2 .exactText = some f1 → o2 .partialText = some f2 → o2 .buttonRole = some f3 →
      click_by_text text true o1 o2 =
        ⟨click_strategies.map (fun t => (1, t)) ++
          (click_strategies.take 3).map (fun t => (2, t)), true,
          .error (click_err_msg text (some e6))⟩) ∧
    (∀ (label : String) (o1 o2 : FillStrat → Option String)
      (g1 g2 g3 g4 g5 g6 g7 f1 f2 f3 f4 : String),
      o1 .byPlaceholder = some g1 → o1 .byLabel = some g2 → o1 .byRoleTextbox = some g3 →
      o1 .byAriaLabelAttr = some g4 → o1 .byNameAttr = some g5 →
      o1 .byPlaceholderContains = some g6 →
      fill_outcome label o1 .passwordFallback = some g7 →
      o2 .byPlaceholder = some f1 → o2 .byLabel = some f2 → o2 .byRoleTextbox = some f3 →
      o2 .byAriaLabelAttr = some f4 →
      fill_input label true o1 o2 =
        ⟨fill_strategies.map (fun t => (1, t)) ++
          (fill_strategies.take 4).map (fun t => (2, t)), true,
          .error (fill_err_msg label (some g7))⟩) := by
  refine ⟨⟨rfl, rfl, rfl⟩, ?_, ?_, ?_⟩
  · intro text retry o1 o2 pre s post hcs hpre hs
    obtain ⟨le', hfp⟩ := first_pass_prefix_success o1 pre s post none hpre hs
    simp only [click_by_text, hcs, hfp]
  · intro text o1 o2 e1 e2 e3 e4 e5 e6 f1 f2 f3 h1 h2 h3 h4 h5 h6 g1 g2 g3
    simp only [click_by_text, click_strategies, first_pass, retry_pass, List.take,
      h1, h2, h3, h4, h5, h6, g1, g2, g3, List.map_cons, List.map_nil]
    rw [if_pos trivial]
  · intro label o1 o2 g1 g2 g3 g4 g5 g6 g7 f1 f2 f3 f4 h1 h2 h3 h4 h5 h6 h7 k1 k2 k3 k4
    have e1 : fill_outcome label o1 .byPlaceholder = some g1 := h1
    have e2 : fill_outcome label o1 .byLabel = some g2 := h2
    have e3 : fill_outcome label o1 .byRoleTextbox = some g3 := h3
    have e4 : fill_outcome label o1 .byAriaLabelAttr = some g4 := h4
    have e5 : fill_outcome label o1 .byNameAttr = some g5 := h5
    have e6 : fill_outcome label o1 .byPlaceholderContains = some g6 := h6
    have r1 : fill_outcome label o2 .byPlaceholder = some f1 := k1
    have r2 : fill_outcome label o2 .byLabel = some f2 := k2
    have r3 : fill_outcome label o2 .byRoleTextbox = some f3 := k3
    have r4 : fill_outcome label o2 .byAriaLabelAttr = some f4 := k4
    simp only [fill_input, fill_strategies, first_pass, retry_pass, List.take,
      e1, e2, e3, e4, e5, e6, h7, r1, r2, r3, r4, List.map_cons, List.map_nil]
    rw [if_pos trivial]

/-- C5 witness: short-circuiting on the second strategy, the full
six-plus-three failing click cascade with its final error, and the full
seven-plus-four failing fill cascade. -/
theorem C5_resolution_cascade_witness :
    click_by_text "OK" true o_second o_none =
      ⟨([ClickStrat.exactText] ++ [ClickStrat.partialText]).map (fun t => (1, t)), false,
        .ok (1, .partialText)⟩ ∧
    click_by_text "OK" true o_none o_none =
      ⟨click_strategies.map (fun t => (1, t)) ++
        (click_strategies.take 3).map (fun t => (2, t)), true,
        .error (click_err_msg "OK" (some "no match"))⟩ ∧
    fill_input "Email" true o_nofill o_nofill =
      ⟨fill_strategies.map (fun t => (1, t)) ++
        (fill_strategies.take 4).map (fun t => (2, t)), true,
        .error (fill_err_msg "Email" (some "Not a password"))⟩ :=
  ⟨C5_resolution_cascade.2.1 "OK" true o_second o_none
      [.exactText] .partialText [.buttonRole, .linkRole, .textContent, .ariaLabel]
      rfl (by decide) rfl,
   C5_resolution_cascade.2.2.1 "OK" o_none o_none
      "no match" "no match" "no match" "no match" "no match" "no match"
      "no match" "no match" "no match" rfl rfl rfl rfl rfl rfl rfl rfl rfl,
   C5_resolution_cascade.2.2.2 "Email" o_nofill o_nofill
      "no input" "no input" "no input" "no input" "no input" "no input" "Not a password"
      "no input" "no input" "no input" "no input"
      rfl rfl rfl rfl rfl rfl (by decide) rfl rfl rfl rfl⟩

/-- C8: a malformed oracle response is not always substituted with the
default wait action: the markdown-wrapped click response fails JSON
decoding, yet `decide_next_action` returns the click action salvaged by
the braced-fragment extraction, not `Wait{1s}`. -/
theorem C8_extraction_not_default_cex :
    json_loads md_click = none ∧
    decide_next_action [] (.returns md_click) .raises =
      ([("action", JVal.str "click")], []) ∧
    ([("action", JVal.str "click")] : Dict) ≠ default_wait := by
  refine ⟨by decide, by decide, by decide⟩

/-- C8 (amended): decode failures never raise and never abort. A
response that fails JSON decoding first undergoes extraction of the
first braced fragment: when that fragment parses to an object carrying
an `action` field, that object is returned; in every other failure case
— no fragment, unparsable fragment, fragment or response without the
`action` discriminant — the default `Wait{1s}` action is substituted.
The recent-actions state is untouched in all of these cases. -/
theorem C8_decode_failure_fallback :
    (∀ (recent : List String) (content : String) (r2 : OracleResult),
      json_loads content = none →
      decide_next_action recent (.returns content) r2 = (decode_fallback content, recent)) ∧
    (∀ (recent : List String) (content : String) (a : Dict) (r2 : OracleResult),
      json_loads content = some a → dict_get a "action" = none →
      decide_next_action recent (.returns content) r2 = (default_wait, recent)) ∧
    (∀ (content : String), regex_obj_search content.data = none →
      decode_fallback content = default_wait) ∧
    (∀ (content : String) (frag : List Char),
      regex_obj_search content.data = some frag → json_loads (String.mk frag) = none →
      decode_fallback content = default_wait) ∧
    (∀ (content : String) (frag : List Char) (a : Dict),
      regex_obj_search content.data = some frag → json_loads (String.mk frag) = some a →
      dict_get a "action" = none → decode_fallback content = default_wait) ∧
    (∀ (content : String) (frag : List Char) (a : Dict) (v : JVal),
      regex_obj_search content.data = some frag → json_loads (String.mk frag) = some a →
      dict_get a "action" = some v → decode_fallback content = a) := by
  refine ⟨?_, ?_, ?_, ?_, ?_, ?_⟩
  · intro recent content r2 h
    by_cases hc : content = ""
    · subst hc
      rfl
    · simp only [decide_next_action, if_neg hc, h]
  · intro recent content a r2 hjl hact
    have hne : content ≠ "" := by
      intro hh
      subst hh
      exact Option.noConfusion ((rfl : json_loads "" = none) ▸ hjl)
    simp only [decide_next_action, if_neg hne, hjl, hact, Option.isNone_none, if_pos]
  · intro content h
    simp only [decode_fallback, h]
  · intro content frag h1 h2
    simp only [decode_fallback, h1, h2]
  · intro content frag a h1 h2 h3
    simp only [decode_fallback, h1, h2, h3, Option.isSome_none, Bool.false_eq_true, if_false]
  · intro content frag a v h1 h2 h3
    simp only [decode_fallback, h1, h2, h3, Option.isSome_some, if_pos]

/-- C8 witness: the fallback equation on an unparsable response, the
default substitution on a response lacking the discriminant, and the
salvaged click on the markdown-wrapped response. -/
theorem C8_decode_failure_fallback_witness :
    decide_next_action ["x"] (.returns "not json") .raises =
      (decode_fallback "not json", ["x"]) ∧
    decide_next_action ["x"] (.returns json_noact) .raises = (default_wait, ["x"]) ∧
    decode_fallback md_click = [("action", JVal.str "click")] :=
  ⟨C8_decode_failure_fallback.1 ["x"] "not json" .raises (by decide),
   C8_decode_failure_fallback.2.1 ["x"] json_noact [("foo", JVal.num 1)] .raises
     (by decide) (by decide),
   C8_decode_failure_fallback.2.2.2.2.2 md_click
     (obrace :: "\"action\": \"click\"".data ++ [cbrace]) [("action", JVal.str "click")]
     (JVal.str "click") (by decide) (by decide) (by decide)⟩

/-- C10: `decide_next_action` leaves `recent_actions` unchanged on every
decode-failure path (transport error, empty content, unparsable content,
missing discriminant, and a failed re-ask), and when a detected loop
triggers the single re-ask and the re-ask content parses, the entry
recorded is the serialization of the replacement action, not of the
originally flagged action. -/
theorem C10_recent_actions_discipline :
    (∀ (recent : List String) (r2 : OracleResult),
      decide_next_action recent .raises r2 = (default_wait, recent)) ∧
    (∀ (recent : List String) (content : String) (r2 : OracleResult),
      json_loads content = none →
      (decide_next_action recent (.returns content) r2).2 = recent) ∧
    (∀ (recent : List String) (content : String) (a : Dict) (r2 : OracleResult),
      json_loads content = some a → dict_get a "action" = none →
      (decide_next_action recent (.returns content) r2).2 = recent) ∧
    (∀ (recent : List String) (content : String) (a : Dict),
      json_loads content = some a → (dict_get a "action").isSome = true →
      (detect_loop recent a).1 = true →
      decide_next_action recent (.returns content) .raises = (default_wait, recent)) ∧
    (∀ (recent : List String) (content : String) (a : Dict) (c2 : String) (a2 : Dict),
      json_loads content = some a → (dict_get a "action").isSome = true →
      (detect_loop recent a).1 = true → c2 ≠ "" → json_loads c2 = some a2 →
      decide_next_action recent (.returns content) (.returns c2) =
        (a2, record_action recent (dumps a2))) := by
  refine ⟨?_, ?_, ?_, ?_, ?_⟩
  · intro recent r2
    rfl
  · intro recent content r2 h
    by_cases hc : content = ""
    · subst hc
      rfl
    · simp only [decide_next_action, if_neg hc, h]
  · intro recent content a r2 hjl hact
    have hne : content ≠ "" := by
      intro hh
      subst hh
      exact Option.noConfusion ((rfl : json_loads "" = none) ▸ hjl)
    simp only [decide_next_action, if_neg hne, hjl, hact, Option.isNone_none, if_pos]
  · intro recent content a hjl hsome hloop
    have hne : content ≠ "" := by
      intro hh
      subst hh
      exact Option.noConfusion ((rfl : json_loads "" = none) ▸ hjl)
    obtain ⟨v, hv⟩ := Option.isSome_iff_exists.mp hsome
    simp only [decide_next_action, if_neg hne, hjl, hv, Option.isNone_some,
      Bool.false_eq_true, if_false, hloop, if_pos]
  · intro recent content a c2 a2 hjl hsome hloop hc2 hjl2
    have hne : content ≠ "" := by
      intro hh
      subst hh
      exact Option.noConfusion ((rfl : json_loads "" = none) ▸ hjl)
    obtain ⟨v, hv⟩ := Option.isSome_iff_exists.mp hsome
    simp only [decide_next_action, if_neg hne, hjl, hv, Option.isNone_some,
      Bool.false_eq_true, if_false, hloop, if_pos, if_neg hc2, hjl2]

/-- C10 witness: untouched state on a transport failure and on garbage
content, and the re-ask recording the replacement scroll action after
the click loop fires. -/
theorem C10_recent_actions_discipline_witness :
    decide_next_action rec2 .raises .raises = (default_wait, rec2) ∧
    (decide_next_action rec2 (.returns "garbage") .raises).2 = rec2 ∧
    decide_next_action rec2 (.returns json_click) (.returns json_scroll) =
      (scroll_up, record_action rec2 (dumps scroll_up)) :=
  ⟨C10_recent_actions_discipline.1 rec2 .raises,
   C10_recent_actions_discipline.2.1 rec2 "garbage" .raises (by decide),
   C10_recent_actions_discipline.2.2.2.2 rec2 json_click click_ok json_scroll scroll_up
     (by decide) (by decide) (by decide) (by decide) (by decide)⟩
